import Mathlib

/-!
Verification of the `ThreadSafeRingBuffer` class from
`src/ouster-ros/src/thread_safe_ring_buffer.h`, a fixed-capacity byte ring
buffer with three write variants (blocking, overwrite, non-blocking), three
read variants (blocking, timed, non-blocking), and a drop policy that
suppresses reads whose target slot collides with the slot the writer most
recently claimed.

The embedding is a shallow, sequential one: every method of the class becomes
a pure Lean function on an explicit state record.  C++ machine integers are
modelled as `Nat` with explicit reductions: `size_t` arithmetic is taken
modulo `2 ^ 64`, `uint32_t` arithmetic modulo `2 ^ 32`, and the
`static_cast<int>` inside `pop` is modelled as 32-bit truncation reinterpreted
as a signed integer.  The byte storage (`std::vector<uint8_t>`) is modelled as
a function from byte index to byte value; writer callbacks are modelled by the
byte string they copy into their slot (as all callbacks in the repository
tests do), so stored bytes are reduced modulo 256.

Blocking behaviour is modelled sequentially: a call that would block forever
in a single-threaded execution (blocking write on a full buffer, blocking or
timed read on an empty buffer) is represented by the state it leaves behind at
the moment it starts waiting, with no callback invocation.
-/

/-- The modulus of the C++ type `size_t` on the 64-bit target platform. -/
def SZ : Nat := 2 ^ 64

/-- `SIZE_MAX`, the largest `size_t` value; used by the constructor and the
reset methods as the sentinel cursor value. -/
def SIZE_MAX : Nat := SZ - 1

/-- The modulus of the C++ type `uint32_t`. -/
def U32 : Nat := 2 ^ 32

/-- `static_cast<int>` applied to a `size_t` value: truncation to the low 32
bits, reinterpreted as a signed two-complement integer. -/
def toInt32 (n : Nat) : Int :=
  if n % U32 < 2 ^ 31 then Int.ofNat (n % U32) else Int.ofNat (n % U32) - Int.ofNat U32

/-- `MAX_ALLOWED_READ_DROPS = UINT16_MAX * 6`, the drop-streak threshold. -/
def MAX_ALLOWED_READ_DROPS : Nat := 65535 * 6

/-- Effect of a writer callback on the byte store: copy `item` to the byte
range starting at `off` (the repository callbacks `memcpy` exactly
`item_size` bytes).  The store holds `uint8_t` values, hence the reduction
modulo 256. -/
def writeBytes (f : Nat → Nat) (off : Nat) (item : List Nat) : Nat → Nat :=
  fun i => if off ≤ i ∧ i < off + item.length then item.getD (i - off) 0 % 256 else f i

/-- What a reader callback observes: the `len` bytes starting at `off`. -/
def readBytes (f : Nat → Nat) (off len : Nat) : List Nat :=
  (List.range len).map fun i => f (off + i)

/-- State of a `ThreadSafeRingBuffer` object: the byte storage and every
mutable or immutable data member of the class (locks and condition variables
have no sequential content and are omitted). -/
structure ThreadSafeRingBuffer where
  buffer : Nat → Nat
  item_size : Nat
  max_items_count : Nat
  active_items_count : Nat
  write_idx : Nat
  read_idx : Nat
  dropped_reads : Nat
  should_always_drop_reads : Bool

namespace ThreadSafeRingBuffer

/-- The constructor `ThreadSafeRingBuffer(item_size_, items_count_)`: the
byte vector is value-initialized (all zero), counters start at zero, both
cursors start at the sentinel `SIZE_MAX`, the drop streak at zero, and
`should_always_drop_reads` at `true`.  Note that the constructor performs no
validation of its arguments. -/
def init (item_size_ items_count_ : Nat) : ThreadSafeRingBuffer :=
  { buffer := fun _ => 0
    item_size := item_size_
    max_items_count := items_count_
    active_items_count := 0
    write_idx := SIZE_MAX
    read_idx := SIZE_MAX
    dropped_reads := 0
    should_always_drop_reads := true }

/-- `capacity()`. -/
def capacity (b : ThreadSafeRingBuffer) : Nat := b.max_items_count

/-- `size()`. -/
def size (b : ThreadSafeRingBuffer) : Nat := b.active_items_count

/-- `empty()`. -/
def empty (b : ThreadSafeRingBuffer) : Bool := b.active_items_count == 0

/-- `full()`. -/
def full (b : ThreadSafeRingBuffer) : Bool := b.active_items_count == b.capacity

/-- `increment_with_capacity(write_idx)`: computes
`(write_idx + 1) % capacity()` in `size_t` arithmetic, stores it back into
`write_idx`, and returns the incremented value. -/
def increment_write_with_capacity (b : ThreadSafeRingBuffer) :
    ThreadSafeRingBuffer × Nat :=
  let incremented := ((b.write_idx + 1) % SZ) % b.capacity
  ({ b with write_idx := incremented }, incremented)

/-- `increment_with_capacity(read_idx)`: same operation on the read cursor. -/
def increment_read_with_capacity (b : ThreadSafeRingBuffer) :
    ThreadSafeRingBuffer × Nat :=
  let incremented := ((b.read_idx + 1) % SZ) % b.capacity
  ({ b with read_idx := incremented }, incremented)

/-- `incremented_with_capacity(idx)`: the pure variant,
`(idx + 1) % capacity()` in `size_t` arithmetic, no state change. -/
def incremented_with_capacity (b : ThreadSafeRingBuffer) (idx : Nat) : Nat :=
  ((idx + 1) % SZ) % b.capacity

/-- `push()`: `active_items_count = std::min(active_items_count + 1, capacity())`,
the addition performed in `size_t` arithmetic. -/
def push (b : ThreadSafeRingBuffer) : ThreadSafeRingBuffer :=
  { b with active_items_count := min ((b.active_items_count + 1) % SZ) b.capacity }

/-- The value stored by `pop()`:
`static_cast<size_t>(std::max(static_cast<int>(a - 1), 0))` where `a - 1` is
`size_t` arithmetic (wrapping at zero) and the cast to `int` truncates to 32
bits and reads the result as signed. -/
def pop_value (a : Nat) : Nat :=
  (max (toInt32 ((a + SZ - 1) % SZ)) 0).toNat

/-- `pop()`: stores `pop_value` of the occupancy counter back into it. -/
def pop (b : ThreadSafeRingBuffer) : ThreadSafeRingBuffer :=
  { b with active_items_count := pop_value b.active_items_count }

/-- `perform_write(buffer_write)`: advance the write cursor, let the callback
fill the slot at byte offset `write_idx * item_size`, then `push()` (the
`notify_all` has no sequential content). -/
def perform_write (b : ThreadSafeRingBuffer) (item : List Nat) :
    ThreadSafeRingBuffer :=
  let r := b.increment_write_with_capacity
  push { r.1 with buffer := writeBytes r.1.buffer (r.2 * r.1.item_size) item }

/-- `perform_read(buffer_read)`: if advancing the read cursor would land on
`write_idx` and either `should_always_drop_reads` holds or the drop streak is
below `MAX_ALLOWED_READ_DROPS`, the read is suppressed and `dropped_reads` is
incremented (`uint32_t` arithmetic).  Otherwise `dropped_reads` is cleared,
the read cursor advances, the callback observes the slot (returned here as
`some bytes`), and `pop()` runs. -/
def perform_read (b : ThreadSafeRingBuffer) :
    ThreadSafeRingBuffer × Option (List Nat) :=
  if b.incremented_with_capacity b.read_idx = b.write_idx ∧
      (b.should_always_drop_reads = true ∨
        b.dropped_reads < MAX_ALLOWED_READ_DROPS) then
    ({ b with dropped_reads := (b.dropped_reads + 1) % U32 }, none)
  else
    let b0 := { b with dropped_reads := 0 }
    let r := b0.increment_read_with_capacity
    (pop r.1, some (readBytes r.1.buffer (r.2 * r.1.item_size) r.1.item_size))

/-- `write(buffer_write)` (blocking): clear `should_always_drop_reads`, wait
until `!full()`, then `perform_write`.  Sequentially, a call finding the
buffer full waits forever; it is modelled by the state at the start of the
wait.  The returned boolean records whether the writer callback ran. -/
def write (b : ThreadSafeRingBuffer) (item : List Nat) :
    ThreadSafeRingBuffer × Bool :=
  let b1 := { b with should_always_drop_reads := false }
  if b1.full then (b1, false) else (perform_write b1 item, true)

/-- `write_overwrite(buffer_write)`: set `should_always_drop_reads`, then
`perform_write` unconditionally. -/
def write_overwrite (b : ThreadSafeRingBuffer) (item : List Nat) :
    ThreadSafeRingBuffer × Bool :=
  (perform_write { b with should_always_drop_reads := true } item, true)

/-- `write_nonblock(buffer_write)`: clear `should_always_drop_reads`, then
`perform_write` only if `!full()`; otherwise the item is silently dropped. -/
def write_nonblock (b : ThreadSafeRingBuffer) (item : List Nat) :
    ThreadSafeRingBuffer × Bool :=
  let b1 := { b with should_always_drop_reads := false }
  if b1.full then (b1, false) else (perform_write b1 item, true)

/-- `read(buffer_read)` (blocking): wait until `!empty()`, then
`perform_read`.  Sequentially, a call finding the buffer empty waits forever;
it is modelled by the unchanged state and no callback. -/
def read (b : ThreadSafeRingBuffer) :
    ThreadSafeRingBuffer × Option (List Nat) :=
  if b.empty then (b, none) else perform_read b

/-- `read_timeout(buffer_read, timeout)`: sequentially the wait predicate is
decided by the current state, so the call performs `perform_read` when the
buffer is non-empty and times out (no callback) when it is empty. -/
def read_timeout (b : ThreadSafeRingBuffer) :
    ThreadSafeRingBuffer × Option (List Nat) :=
  if b.empty then (b, none) else perform_read b

/-- `read_nonblock(buffer_read)`: `perform_read` only if `!empty()`. -/
def read_nonblock (b : ThreadSafeRingBuffer) :
    ThreadSafeRingBuffer × Option (List Nat) :=
  if b.empty then (b, none) else perform_read b

/-- `reset_write_idx()`: administratively realign the write cursor to the
sentinel. -/
def reset_write_idx (b : ThreadSafeRingBuffer) : ThreadSafeRingBuffer :=
  { b with write_idx := SIZE_MAX }

/-- `reset_read_idx()`. -/
def reset_read_idx (b : ThreadSafeRingBuffer) : ThreadSafeRingBuffer :=
  { b with read_idx := SIZE_MAX }

/-- `get_max_allowed_read_drops()`. -/
def get_max_allowed_read_drops : Nat := MAX_ALLOWED_READ_DROPS

end ThreadSafeRingBuffer

/-- Run a sequence of blocking writes, keeping only the resulting state. -/
def writeAll (b : ThreadSafeRingBuffer) (items : List (List Nat)) :
    ThreadSafeRingBuffer :=
  items.foldl (fun s it => (s.write it).1) b

/-- Run `n` blocking read calls, collecting the byte strings handed to the
reader callbacks (a suppressed or blocked call contributes nothing). -/
def readN (b : ThreadSafeRingBuffer) : Nat → ThreadSafeRingBuffer × List (List Nat)
  | 0 => (b, [])
  | n + 1 =>
      let r := b.read
      let rest := readN r.1 n
      (rest.1, r.2.toList ++ rest.2)

/-- One public operation of the class, for whole-run statements. -/
inductive Op where
  | write (item : List Nat)
  | write_overwrite (item : List Nat)
  | write_nonblock (item : List Nat)
  | read
  | read_timeout
  | read_nonblock
  | reset_write_idx
  | reset_read_idx

/-- A run: the current state plus the byte strings passed to writer callbacks
and collected from reader callbacks so far, in call order. -/
structure RunTrace where
  state : ThreadSafeRingBuffer
  written : List (List Nat)
  delivered : List (List Nat)

/-- The trace of a freshly constructed buffer. -/
def RunTrace.start (b : ThreadSafeRingBuffer) : RunTrace :=
  { state := b, written := [], delivered := [] }

/-- Execute one operation, recording callback activity. -/
def stepTrace (t : RunTrace) (op : Op) : RunTrace :=
  match op with
  | .write item =>
      let r := t.state.write item
      { t with state := r.1,
               written := if r.2 then t.written ++ [item] else t.written }
  | .write_overwrite item =>
      let r := t.state.write_overwrite item
      { t with state := r.1,
               written := if r.2 then t.written ++ [item] else t.written }
  | .write_nonblock item =>
      let r := t.state.write_nonblock item
      { t with state := r.1,
               written := if r.2 then t.written ++ [item] else t.written }
  | .read =>
      let r := t.state.read
      { t with state := r.1,
               delivered := t.delivered ++ r.2.toList }
  | .read_timeout =>
      let r := t.state.read_timeout
      { t with state := r.1,
               delivered := t.delivered ++ r.2.toList }
  | .read_nonblock =>
      let r := t.state.read_nonblock
      { t with state := r.1,
               delivered := t.delivered ++ r.2.toList }
  | .reset_write_idx => { t with state := t.state.reset_write_idx }
  | .reset_read_idx => { t with state := t.state.reset_read_idx }

/-- Execute a sequence of operations. -/
def runOps (t : RunTrace) (ops : List Op) : RunTrace :=
  ops.foldl stepTrace t

/-- The all-zero byte store of a freshly constructed buffer. -/
def zeroStore : Nat → Nat := fun _ => 0

/-- A reachable state in overwrite mode whose drop streak sits at the largest
`uint32_t` value (one more consecutive suppression wraps the counter): item
size one, one slot, one buffered item, collision between the next read slot
and the write cursor. -/
def dropStreakAtUInt32Max : ThreadSafeRingBuffer :=
  { buffer := zeroStore
    item_size := 1
    max_items_count := 1
    active_items_count := 1
    write_idx := 0
    read_idx := SIZE_MAX
    dropped_reads := 4294967295
    should_always_drop_reads := true }

/-- Like `dropStreakAtUInt32Max` with a small drop streak, for exercising the
ordinary suppression step. -/
def dropStreakSmall : ThreadSafeRingBuffer :=
  { dropStreakAtUInt32Max with dropped_reads := 3 }

/-- A colliding state outside overwrite mode whose drop streak has reached the
threshold, so the next read is forced through. -/
def forcedReadState : ThreadSafeRingBuffer :=
  { dropStreakAtUInt32Max with
      dropped_reads := MAX_ALLOWED_READ_DROPS
      should_always_drop_reads := false }

/-- A full one-slot buffer in overwrite mode with the drop streak at the
threshold, for the non-blocking-write frame claim. -/
def fullOverwriteState : ThreadSafeRingBuffer :=
  { dropStreakAtUInt32Max with dropped_reads := MAX_ALLOWED_READ_DROPS }

/-- A buffer holding `2 ^ 31 + 1` items (capacity `2 ^ 31 + 1`, item size
one).  Reachable on a 64-bit machine with a storage of that many bytes after
that many completed writes.  The cursors are positioned so that the next read
does not collide with the writer. -/
def popOverflowState : ThreadSafeRingBuffer :=
  { buffer := zeroStore
    item_size := 1
    max_items_count := 2147483649
    active_items_count := 2147483649
    write_idx := 0
    read_idx := 0
    dropped_reads := 0
    should_always_drop_reads := false }

/-- Four-byte little-endian encoding of a counter value, used to build long
sequences of pairwise distinct items. -/
def encodeItem (k : Nat) : List Nat :=
  [k % 256, k / 256 % 256, k / 65536 % 256, k / 16777216 % 256]

/-- One more than `2 ^ 31`: the smallest number of items for which the
`static_cast<int>` in `pop` derails the occupancy counter. -/
def bigN : Nat := 2147483649

/-- `bigN` pairwise distinct four-byte items. -/
def bigItems : List (List Nat) := (List.range bigN).map encodeItem

/-- Public-operation prefix on a two-slot buffer of one-byte items: three
overwrite writes (the third overwrites the never-read slot `0`), then one
non-blocking write on the full buffer, which is dropped but clears
`should_always_drop_reads`. -/
def c8Setup : List Op :=
  [Op.write_overwrite [0], Op.write_overwrite [1], Op.write_overwrite [2],
   Op.write_nonblock [3]]

/-- The full run: after the prefix, `MAX_ALLOWED_READ_DROPS` colliding
non-blocking reads are suppressed, the next one is forced through by the
anti-starvation rule, and one final read drains the buffer. -/
def c8Ops : List Op :=
  c8Setup ++ (List.replicate MAX_ALLOWED_READ_DROPS Op.read_nonblock ++
    [Op.read_nonblock, Op.read_nonblock])

/-- A buffer whose write cursor holds the sentinel (as after
`reset_write_idx`) and which holds one item. -/
def sentinelWriteState : ThreadSafeRingBuffer :=
  { buffer := zeroStore
    item_size := 1
    max_items_count := 2
    active_items_count := 1
    write_idx := SIZE_MAX
    read_idx := SIZE_MAX
    dropped_reads := 5
    should_always_drop_reads := true }


namespace RingLemmas

open ThreadSafeRingBuffer

/-- `static_cast<int>` is the identity on values below `2 ^ 31`. -/
theorem toInt32_of_lt {m : Nat} (h : m < 2 ^ 31) : toInt32 m = (m : Int) := by
  have hm : m % U32 = m := Nat.mod_eq_of_lt (lt_trans h (by norm_num [U32]))
  unfold toInt32
  rw [hm, if_pos h]
  rfl

/-- `pop` stores `pop_value` of the occupancy counter. -/
theorem pop_active (b : ThreadSafeRingBuffer) :
    (pop b).active_items_count = pop_value b.active_items_count := by
  cases b
  simp only [pop]

/-- `pop` keeps the byte store. -/
theorem pop_buffer (b : ThreadSafeRingBuffer) :
    (pop b).buffer = b.buffer := by
  cases b
  simp only [pop]

/-- `pop` keeps the item size. -/
theorem pop_item_size (b : ThreadSafeRingBuffer) :
    (pop b).item_size = b.item_size := by
  cases b
  simp only [pop]

/-- `pop` keeps the capacity. -/
theorem pop_max (b : ThreadSafeRingBuffer) :
    (pop b).max_items_count = b.max_items_count := by
  cases b
  simp only [pop]

/-- `pop` keeps the write cursor. -/
theorem pop_write_idx (b : ThreadSafeRingBuffer) :
    (pop b).write_idx = b.write_idx := by
  cases b
  simp only [pop]

/-- `pop` keeps the read cursor. -/
theorem pop_read_idx (b : ThreadSafeRingBuffer) :
    (pop b).read_idx = b.read_idx := by
  cases b
  simp only [pop]

/-- `pop` keeps the drop streak. -/
theorem pop_dropped (b : ThreadSafeRingBuffer) :
    (pop b).dropped_reads = b.dropped_reads := by
  cases b
  simp only [pop]

/-- `pop` keeps the drop-policy flag. -/
theorem pop_flag (b : ThreadSafeRingBuffer) :
    (pop b).should_always_drop_reads = b.should_always_drop_reads := by
  cases b
  simp only [pop]

/-- `pop_value` is an exact decrement on values that are positive and at most
`2 ^ 31`. -/
theorem pop_value_of_le {a : Nat} (h1 : 1 ≤ a) (h2 : a ≤ 2 ^ 31) :
    pop_value a = a - 1 := by
  have hs : a + SZ - 1 = (a - 1) + SZ := by
    have : (1 : Nat) ≤ SZ := by norm_num [SZ]
    omega
  have hlt : a - 1 < SZ := by
    have : (2 : Nat) ^ 31 < SZ := by norm_num [SZ]
    omega
  have hmod : (a + SZ - 1) % SZ = a - 1 := by
    rw [hs, Nat.add_mod_right, Nat.mod_eq_of_lt hlt]
  have hsmall : a - 1 < 2 ^ 31 := by omega
  unfold ThreadSafeRingBuffer.pop_value
  rw [hmod, toInt32_of_lt hsmall, max_eq_left (Int.ofNat_nonneg _)]
  rfl

/-- `pop` is an exact decrement while the counter is positive and at most
`2 ^ 31`. -/
theorem pop_active_of_le {b : ThreadSafeRingBuffer}
    (h1 : 1 ≤ b.active_items_count) (h2 : b.active_items_count ≤ 2 ^ 31) :
    (pop b).active_items_count = b.active_items_count - 1 := by
  rw [pop_active]
  exact pop_value_of_le h1 h2

/-- `pop` clamps at zero. -/
theorem pop_active_of_zero {b : ThreadSafeRingBuffer}
    (h : b.active_items_count = 0) :
    (pop b).active_items_count = 0 := by
  rw [pop_active, h]
  decide

end RingLemmas

open ThreadSafeRingBuffer RingLemmas

/-- C3: the spec requires construction with degenerate sizes
(`item_size < 1` or `capacity < 1`) to be rejected eagerly, but the
constructor performs no validation whatsoever: with `item_size = 0` and
`capacity = 0` it happily produces a fully formed buffer object.  This
theorem evaluates the constructor at that failing input. -/
theorem C3_constructor_accepts_degenerate_sizes :
    (init 0 0).item_size = 0 ∧
    (init 0 0).max_items_count = 0 ∧
    (init 0 0).active_items_count = 0 ∧
    (init 0 0).write_idx = SIZE_MAX ∧
    (init 0 0).read_idx = SIZE_MAX ∧
    (init 0 0).dropped_reads = 0 ∧
    (init 0 0).should_always_drop_reads = true ∧
    (init 0 0).buffer 0 = 0 :=
  ⟨rfl, rfl, rfl, rfl, rfl, rfl, rfl, rfl⟩

/-- C4: on a full buffer, `write_nonblock` does not invoke the writer
callback and changes nothing except clearing `should_always_drop_reads`
(in particular the storage, the write cursor and the occupancy counter are
untouched); on a non-full buffer it performs the shared write primitive. -/
theorem C4_write_nonblock_drops_when_full (b : ThreadSafeRingBuffer)
    (item : List Nat) :
    (b.full = true →
      b.write_nonblock item = ({ b with should_always_drop_reads := false }, false)) ∧
    (b.full = false →
      b.write_nonblock item =
        (perform_write { b with should_always_drop_reads := false } item, true)) := by
  constructor
  · intro h
    have h1 : ({ b with should_always_drop_reads := false } :
        ThreadSafeRingBuffer).full = true := h
    simp only [write_nonblock]
    rw [if_pos h1]
  · intro h
    have h1 : ({ b with should_always_drop_reads := false } :
        ThreadSafeRingBuffer).full = false := h
    simp only [write_nonblock]
    rw [if_neg (by simp [h1])]

/-- C4 witness: both branches at concrete buffers (a full one-slot buffer and
a fresh empty one). -/
theorem C4_write_nonblock_drops_when_full_witness :
    ({ init 1 1 with active_items_count := 1 } : ThreadSafeRingBuffer).full = true ∧
    ({ init 1 1 with active_items_count := 1 } :
        ThreadSafeRingBuffer).write_nonblock [7] =
      ({ init 1 1 with active_items_count := 1,
                       should_always_drop_reads := false }, false) ∧
    (init 1 1).full = false ∧
    (init 1 1).write_nonblock [7] =
      (perform_write { init 1 1 with should_always_drop_reads := false } [7], true) :=
  ⟨by decide,
   (C4_write_nonblock_drops_when_full _ [7]).1 (by decide),
   by decide,
   (C4_write_nonblock_drops_when_full _ [7]).2 (by decide)⟩

/-- C5: the claim says every completed read decrements the occupancy counter
by one, saturating at zero.  The code computes
`static_cast<size_t>(std::max(static_cast<int>(active_items_count - 1), 0))`,
and the cast to the 32-bit `int` truncates: at occupancy `2 ^ 31 + 1`
(reachable with a capacity of `2 ^ 31 + 1` bytes and that many completed
writes) a completed, non-suppressed read zeroes the counter instead of
decrementing it to `2 ^ 31`, contradicting the documented clamping decrement.
The containment `0 ≤ size() ≤ capacity()` itself is not violated here. -/
theorem C5_pop_zeroes_large_occupancy :
    popOverflowState.active_items_count = 2147483649 ∧
    ((perform_read popOverflowState).2).isSome = true ∧
    (perform_read popOverflowState).1.active_items_count = 0 ∧
    popOverflowState.active_items_count - 1 = 2147483648 := by
  refine ⟨rfl, ?_, ?_, by decide⟩ <;> decide

/-- C6: both cursors start at the sentinel `SIZE_MAX`, which differs from `0`
and from every valid slot index, and for every positive capacity the first
advance of either cursor stores and returns slot `0`, because
`(SIZE_MAX + 1) mod capacity` is computed after the `size_t` wraparound of
`SIZE_MAX + 1` to `0`. -/
theorem C6_sentinel_cursors_first_advance (s c : Nat) :
    (init s c).write_idx = SIZE_MAX ∧
    (init s c).read_idx = SIZE_MAX ∧
    SIZE_MAX ≠ 0 ∧
    (∀ i, c < SZ → i < c → (init s c).write_idx ≠ i) ∧
    (1 ≤ c →
      ((SIZE_MAX + 1) % SZ) % c = 0 ∧
      (init s c).increment_write_with_capacity = ({ init s c with write_idx := 0 }, 0) ∧
      (init s c).increment_read_with_capacity = ({ init s c with read_idx := 0 }, 0)) := by
  have hw : ((SIZE_MAX + 1) % SZ) = 0 := by decide
  refine ⟨rfl, rfl, by decide, ?_, ?_⟩
  · intro i hc hi
    show SIZE_MAX ≠ i
    have : (0 : Nat) < SZ := by norm_num [SZ]
    simp only [SIZE_MAX]
    omega
  · intro _
    refine ⟨by rw [hw]; exact Nat.zero_mod c, ?_, ?_⟩
    · simp only [increment_write_with_capacity, init, capacity, hw, Nat.zero_mod]
    · simp only [increment_read_with_capacity, init, capacity, hw, Nat.zero_mod]

/-- C6 witness: at `item_size = 4`, `capacity = 3`. -/
theorem C6_sentinel_cursors_first_advance_witness :
    (3 : Nat) < SZ ∧ (2 : Nat) < 3 ∧ (1 : Nat) ≤ 3 ∧
    (init 4 3).write_idx ≠ 2 ∧
    (init 4 3).increment_write_with_capacity = ({ init 4 3 with write_idx := 0 }, 0) :=
  ⟨by decide, by decide, by decide,
   (C6_sentinel_cursors_first_advance 4 3).2.2.2.1 2 (by decide) (by decide),
   ((C6_sentinel_cursors_first_advance 4 3).2.2.2.2 (by decide)).2.1⟩

/-- C7: `increment_with_capacity` applied to either cursor stores
`incremented_with_capacity` of the prior cursor value back into the cursor
and returns exactly that value; `incremented_with_capacity` is pure, and for
every cursor value whose increment does not wrap `size_t` it equals
`(idx + 1) % capacity`. -/
theorem C7_increment_matches_pure_peek (b : ThreadSafeRingBuffer) (idx : Nat) :
    b.increment_write_with_capacity =
      ({ b with write_idx := b.incremented_with_capacity b.write_idx },
        b.incremented_with_capacity b.write_idx) ∧
    b.increment_read_with_capacity =
      ({ b with read_idx := b.incremented_with_capacity b.read_idx },
        b.incremented_with_capacity b.read_idx) ∧
    (idx + 1 < SZ → b.incremented_with_capacity idx = (idx + 1) % b.capacity) := by
  refine ⟨rfl, rfl, ?_⟩
  intro h
  simp only [incremented_with_capacity, Nat.mod_eq_of_lt h]

/-- C7 witness: concrete buffer, cursor value `7`, capacity `5`. -/
theorem C7_increment_matches_pure_peek_witness :
    7 + 1 < SZ ∧ (init 2 5).incremented_with_capacity 7 = (7 + 1) % 5 :=
  ⟨by decide, (C7_increment_matches_pure_peek (init 2 5) 7).2.2 (by decide)⟩

/-- C1 counterexample: the claim says every suppression increments
`dropped_reads` by one, for every state of the buffer.  `dropped_reads` is a
`uint32_t`; in the state `dropStreakAtUInt32Max` (overwrite mode, collision,
streak at `2 ^ 32 - 1`) the suppression fires and the increment wraps the
counter to `0`, not to `dropped_reads + 1 = 2 ^ 32`. -/
theorem C1_suppression_increment_wraps :
    dropStreakAtUInt32Max.incremented_with_capacity dropStreakAtUInt32Max.read_idx =
      dropStreakAtUInt32Max.write_idx ∧
    dropStreakAtUInt32Max.should_always_drop_reads = true ∧
    (perform_read dropStreakAtUInt32Max).2 = none ∧
    (perform_read dropStreakAtUInt32Max).1.dropped_reads = 0 ∧
    dropStreakAtUInt32Max.dropped_reads + 1 = 4294967296 ∧
    (0 : Nat) ≠ 4294967296 := by
  refine ⟨by decide, rfl, ?_, ?_, by decide, by decide⟩ <;> decide

/-- C1 (amended): in `perform_read`, when the incremented read cursor equals
the write cursor and either `should_always_drop_reads` holds or the streak is
below the threshold, the read is suppressed: no callback, and the only state
change is `dropped_reads := (dropped_reads + 1) mod 2 ^ 32` (a plain
increment whenever the streak is below `2 ^ 32 - 1`, hence always in the
threshold-triggered case); when the collision holds but the flag is clear and
the streak has reached the threshold, the read proceeds; and every read that
completes resets `dropped_reads` to zero. -/
theorem C1_perform_read_drop_policy (b : ThreadSafeRingBuffer) :
    (b.incremented_with_capacity b.read_idx = b.write_idx →
      (b.should_always_drop_reads = true ∨
        b.dropped_reads < MAX_ALLOWED_READ_DROPS) →
      (perform_read b =
        ({ b with dropped_reads := (b.dropped_reads + 1) % U32 }, none) ∧
       (b.dropped_reads + 1 < U32 →
        (perform_read b).1.dropped_reads = b.dropped_reads + 1))) ∧
    (b.incremented_with_capacity b.read_idx = b.write_idx →
      b.should_always_drop_reads = false →
      MAX_ALLOWED_READ_DROPS ≤ b.dropped_reads →
      ((perform_read b).2).isSome = true) ∧
    (((perform_read b).2).isSome = true →
      (perform_read b).1.dropped_reads = 0) := by
  refine ⟨?_, ?_, ?_⟩
  · intro hc hp
    have heq : perform_read b =
        ({ b with dropped_reads := (b.dropped_reads + 1) % U32 }, none) := by
      simp only [perform_read]
      rw [if_pos ⟨hc, hp⟩]
    refine ⟨heq, fun hlt => ?_⟩
    rw [heq]
    exact Nat.mod_eq_of_lt hlt
  · intro hc hf hge
    have hcond : ¬(b.incremented_with_capacity b.read_idx = b.write_idx ∧
        (b.should_always_drop_reads = true ∨
          b.dropped_reads < MAX_ALLOWED_READ_DROPS)) := by
      rintro ⟨-, h | h⟩
      · rw [hf] at h; exact Bool.false_ne_true h
      · omega
    simp only [perform_read]
    rw [if_neg hcond]
    rfl
  · intro hs
    by_cases hcond : b.incremented_with_capacity b.read_idx = b.write_idx ∧
        (b.should_always_drop_reads = true ∨
          b.dropped_reads < MAX_ALLOWED_READ_DROPS)
    · exfalso
      simp only [perform_read] at hs
      rw [if_pos hcond] at hs
      simp at hs
    · simp only [perform_read]
      rw [if_neg hcond]
      show (ThreadSafeRingBuffer.pop _).dropped_reads = 0
      rw [RingLemmas.pop_dropped]
      rfl

/-- C1 witness: the suppression step at a small streak, the forced read at
the threshold, and the reset on a completed read, each at a concrete state. -/
theorem C1_perform_read_drop_policy_witness :
    (perform_read dropStreakSmall).1.dropped_reads = 3 + 1 ∧
    ((perform_read forcedReadState).2).isSome = true ∧
    (perform_read forcedReadState).1.dropped_reads = 0 :=
  ⟨((C1_perform_read_drop_policy dropStreakSmall).1 (by decide)
      (Or.inl rfl)).2 (by decide),
   (C1_perform_read_drop_policy forcedReadState).2.1 (by decide) rfl (by decide),
   (C1_perform_read_drop_policy forcedReadState).2.2
     ((C1_perform_read_drop_policy forcedReadState).2.1 (by decide) rfl (by decide))⟩

/-- C9 counterexample: the claim says that while the write cursor holds the
sentinel, every `perform_read` call invokes the callback, advances the
cursor, and decrements occupancy.  On a freshly constructed buffer (write
cursor at the sentinel, occupancy `0`) the call does complete and invoke the
callback, but `pop` clamps: occupancy stays `0` and is not decremented. -/
theorem C9_completed_read_at_zero_occupancy :
    (init 1 2).write_idx = SIZE_MAX ∧
    ((perform_read (init 1 2)).2).isSome = true ∧
    (perform_read (init 1 2)).1.active_items_count = (init 1 2).active_items_count ∧
    (init 1 2).active_items_count = 0 := by
  refine ⟨rfl, ?_, ?_, rfl⟩ <;> decide

/-- C9 (amended): while the write cursor holds the sentinel `SIZE_MAX`, the
collision check can never fire: the incremented read cursor is a valid slot
index, strictly below the capacity and hence distinct from `SIZE_MAX`, so
every `perform_read` invokes the reader callback, advances the read cursor to
that slot, clears the drop streak, and applies the saturating decrement to
occupancy (an exact decrement whenever `1 ≤ occupancy ≤ 2 ^ 31`, identity at
occupancy `0`). -/
theorem C9_sentinel_write_never_collides (b : ThreadSafeRingBuffer)
    (hw : b.write_idx = SIZE_MAX) (hc : 1 ≤ b.max_items_count)
    (hcs : b.max_items_count < SZ) :
    b.incremented_with_capacity b.read_idx < b.max_items_count ∧
    b.incremented_with_capacity b.read_idx ≠ SIZE_MAX ∧
    (perform_read b).2 =
      some (readBytes b.buffer
        ((b.incremented_with_capacity b.read_idx) * b.item_size) b.item_size) ∧
    (perform_read b).1.read_idx = b.incremented_with_capacity b.read_idx ∧
    (perform_read b).1.dropped_reads = 0 ∧
    (1 ≤ b.active_items_count → b.active_items_count ≤ 2 ^ 31 →
      (perform_read b).1.active_items_count = b.active_items_count - 1) ∧
    (b.active_items_count = 0 → (perform_read b).1.active_items_count = 0) := by
  have hlt : b.incremented_with_capacity b.read_idx < b.max_items_count :=
    Nat.mod_lt _ hc
  have hsm : b.max_items_count ≤ SIZE_MAX := by
    simp only [SIZE_MAX]
    omega
  have hne : b.incremented_with_capacity b.read_idx ≠ SIZE_MAX :=
    Nat.ne_of_lt (lt_of_lt_of_le hlt hsm)
  have hcond : ¬(b.incremented_with_capacity b.read_idx = b.write_idx ∧
      (b.should_always_drop_reads = true ∨
        b.dropped_reads < MAX_ALLOWED_READ_DROPS)) := by
    rintro ⟨h, -⟩
    rw [hw] at h
    exact hne h
  have hpr : perform_read b =
      (pop { b with dropped_reads := 0, read_idx := b.incremented_with_capacity b.read_idx },
        some (readBytes b.buffer
          ((b.incremented_with_capacity b.read_idx) * b.item_size) b.item_size)) := by
    simp only [perform_read]
    rw [if_neg hcond]
    rfl
  rw [hpr]
  refine ⟨hlt, hne, rfl, ?_, ?_, ?_, ?_⟩
  · rw [RingLemmas.pop_read_idx]
  · rw [RingLemmas.pop_dropped]
  · intro h1 h2
    exact RingLemmas.pop_active_of_le h1 h2
  · intro h0
    exact RingLemmas.pop_active_of_zero h0

/-- C9 witness: a buffer with sentinel write cursor holding one item; the
read completes, lands on slot `0`, and decrements occupancy to zero. -/
theorem C9_sentinel_write_never_collides_witness :
    sentinelWriteState.write_idx = SIZE_MAX ∧
    (1 : Nat) ≤ sentinelWriteState.max_items_count ∧
    sentinelWriteState.max_items_count < SZ ∧
    (perform_read sentinelWriteState).1.read_idx =
      sentinelWriteState.incremented_with_capacity sentinelWriteState.read_idx ∧
    (perform_read sentinelWriteState).1.dropped_reads = 0 ∧
    (perform_read sentinelWriteState).1.active_items_count = 1 - 1 :=
  ⟨rfl, by decide, by decide,
   (C9_sentinel_write_never_collides sentinelWriteState rfl (by decide)
      (by decide)).2.2.2.1,
   (C9_sentinel_write_never_collides sentinelWriteState rfl (by decide)
      (by decide)).2.2.2.2.1,
   (C9_sentinel_write_never_collides sentinelWriteState rfl (by decide)
      (by decide)).2.2.2.2.2.1 (by decide) (by decide)⟩

/-- C10: on a full buffer, `write_nonblock` transfers no data yet still
clears `should_always_drop_reads`, and that flag is the only state it
changes; clearing it disengages the indefinite suppression policy of
overwrite mode, so a subsequent colliding `perform_read` whose streak has
reached the threshold proceeds. -/
theorem C10_write_nonblock_full_clears_flag (b : ThreadSafeRingBuffer)
    (item : List Nat) (hf : b.full = true) :
    (b.write_nonblock item).1 = { b with should_always_drop_reads := false } ∧
    (b.write_nonblock item).2 = false ∧
    (b.incremented_with_capacity b.read_idx = b.write_idx →
      MAX_ALLOWED_READ_DROPS ≤ b.dropped_reads →
      ((perform_read (b.write_nonblock item).1).2).isSome = true) := by
  have h1 : ({ b with should_always_drop_reads := false } :
      ThreadSafeRingBuffer).full = true := hf
  have heq : b.write_nonblock item =
      ({ b with should_always_drop_reads := false }, false) := by
    simp only [write_nonblock]
    rw [if_pos h1]
  refine ⟨by rw [heq], by rw [heq], ?_⟩
  intro hc hge
  rw [heq]
  have hcond : ¬(({ b with should_always_drop_reads := false } :
      ThreadSafeRingBuffer).incremented_with_capacity
        ({ b with should_always_drop_reads := false } :
          ThreadSafeRingBuffer).read_idx =
      ({ b with should_always_drop_reads := false } :
        ThreadSafeRingBuffer).write_idx ∧
      (({ b with should_always_drop_reads := false } :
          ThreadSafeRingBuffer).should_always_drop_reads = true ∨
        ({ b with should_always_drop_reads := false } :
          ThreadSafeRingBuffer).dropped_reads < MAX_ALLOWED_READ_DROPS)) := by
    rintro ⟨-, h | h⟩
    · exact Bool.false_ne_true h
    · simp only at h
      omega
  simp only [perform_read]
  rw [if_neg hcond]
  rfl

/-- C10 witness: a full one-slot overwrite-mode buffer with the streak at the
threshold; after the dropped non-blocking write, the colliding read
proceeds. -/
theorem C10_write_nonblock_full_clears_flag_witness :
    fullOverwriteState.full = true ∧
    (fullOverwriteState.write_nonblock [9]).1 =
      { fullOverwriteState with should_always_drop_reads := false } ∧
    (fullOverwriteState.write_nonblock [9]).2 = false ∧
    ((perform_read (fullOverwriteState.write_nonblock [9]).1).2).isSome = true :=
  ⟨by decide,
   (C10_write_nonblock_full_clears_flag fullOverwriteState [9] (by decide)).1,
   (C10_write_nonblock_full_clears_flag fullOverwriteState [9] (by decide)).2.1,
   (C10_write_nonblock_full_clears_flag fullOverwriteState [9] (by decide)).2.2
     (by decide) (by decide)⟩

namespace RingLemmas

/-- Bytes outside the written window are untouched. -/
theorem writeBytes_out (f : Nat → Nat) (off : Nat) (item : List Nat) (i : Nat)
    (h : i < off ∨ off + item.length ≤ i) :
    writeBytes f off item i = f i := by
  unfold writeBytes
  rw [if_neg]
  rintro ⟨h1, h2⟩
  omega

/-- Reading a window that ends before the written window starts is
unaffected by the write. -/
theorem readBytes_writeBytes_left (f : Nat → Nat) (off : Nat) (item : List Nat)
    (roff rlen : Nat) (h : roff + rlen ≤ off) :
    readBytes (writeBytes f off item) roff rlen = readBytes f roff rlen := by
  unfold readBytes
  refine List.map_congr_left ?_
  intro i hi
  rw [List.mem_range] at hi
  exact writeBytes_out f off item (roff + i) (Or.inl (by omega))

/-- Reading back exactly the written window yields the written item, provided
its entries are bytes. -/
theorem readBytes_writeBytes_self (f : Nat → Nat) (off : Nat) (item : List Nat)
    (hb : ∀ v ∈ item, v < 256) :
    readBytes (writeBytes f off item) off item.length = item := by
  refine List.ext_getElem ?_ ?_
  · simp [readBytes]
  · intro i h1 h2
    have hi : i < item.length := by simpa [readBytes] using h1
    simp only [readBytes, List.getElem_map, List.getElem_range]
    unfold writeBytes
    rw [if_pos ⟨by omega, by omega⟩]
    have : off + i - off = i := by omega
    rw [this, List.getD_eq_getElem item 0 hi]
    exact Nat.mod_eq_of_lt (hb _ (List.getElem_mem hi))


/-- `perform_write` keeps the item size. -/
theorem perform_write_item_size (b : ThreadSafeRingBuffer) (item : List Nat) :
    (ThreadSafeRingBuffer.perform_write b item).item_size = b.item_size := rfl

/-- `perform_write` keeps the capacity. -/
theorem perform_write_max (b : ThreadSafeRingBuffer) (item : List Nat) :
    (ThreadSafeRingBuffer.perform_write b item).max_items_count = b.max_items_count := rfl

/-- `perform_write` keeps the read cursor. -/
theorem perform_write_read_idx (b : ThreadSafeRingBuffer) (item : List Nat) :
    (ThreadSafeRingBuffer.perform_write b item).read_idx = b.read_idx := rfl

/-- `perform_write` keeps the drop streak. -/
theorem perform_write_dropped (b : ThreadSafeRingBuffer) (item : List Nat) :
    (ThreadSafeRingBuffer.perform_write b item).dropped_reads = b.dropped_reads := rfl

/-- `perform_write` keeps the drop-policy flag. -/
theorem perform_write_flag (b : ThreadSafeRingBuffer) (item : List Nat) :
    (ThreadSafeRingBuffer.perform_write b item).should_always_drop_reads =
      b.should_always_drop_reads := rfl

/-- `perform_write` advances the write cursor by one modulo the capacity. -/
theorem perform_write_write_idx (b : ThreadSafeRingBuffer) (item : List Nat) :
    (ThreadSafeRingBuffer.perform_write b item).write_idx =
      ((b.write_idx + 1) % SZ) % b.max_items_count := rfl

/-- `perform_write` pushes the occupancy. -/
theorem perform_write_active (b : ThreadSafeRingBuffer) (item : List Nat) :
    (ThreadSafeRingBuffer.perform_write b item).active_items_count =
      min ((b.active_items_count + 1) % SZ) b.max_items_count := rfl

/-- `perform_write` lets the callback fill the freshly claimed slot. -/
theorem perform_write_buffer (b : ThreadSafeRingBuffer) (item : List Nat) :
    (ThreadSafeRingBuffer.perform_write b item).buffer =
      writeBytes b.buffer
        ((((b.write_idx + 1) % SZ) % b.max_items_count) * b.item_size) item := rfl

end RingLemmas

/-- State of the buffer after a run of blocking writes from a freshly
constructed buffer, while the item count stays within the capacity: the
cursor trails the number of writes, the occupancy counts them, the read side
is untouched, and slot `k` holds the `k`-th item. -/
theorem writeAll_from_init (s c : Nat) (hc : c < SZ) (items : List (List Nat))
    (hlen : items.length ≤ c)
    (hsz : ∀ it ∈ items, it.length = s)
    (hbytes : ∀ it ∈ items, ∀ v ∈ it, v < 256) :
    (writeAll (init s c) items).item_size = s ∧
    (writeAll (init s c) items).max_items_count = c ∧
    (writeAll (init s c) items).active_items_count = items.length ∧
    (writeAll (init s c) items).read_idx = SIZE_MAX ∧
    (writeAll (init s c) items).dropped_reads = 0 ∧
    (writeAll (init s c) items).write_idx =
      (if items.length = 0 then SIZE_MAX else items.length - 1) ∧
    (writeAll (init s c) items).should_always_drop_reads = items.isEmpty ∧
    (∀ k, k < items.length →
      readBytes (writeAll (init s c) items).buffer (k * s) s = items.getD k []) := by
  induction items using List.reverseRecOn with
  | nil =>
      refine ⟨rfl, rfl, rfl, rfl, rfl, rfl, rfl, ?_⟩
      intro k hk
      simp at hk
  | append_singleton l x ih =>
      have hlen1 : (l ++ [x]).length = l.length + 1 := by simp
      have hlenlt : l.length < c := by
        rw [hlen1] at hlen
        omega
      obtain ⟨ih1, ih2, ih3, ih4, ih5, ih6, ih7, ih8⟩ :=
        ih (Nat.le_of_lt hlenlt)
          (fun it hit => hsz it (List.mem_append_left _ hit))
          (fun it hit => hbytes it (List.mem_append_left _ hit))
      set bL := writeAll (init s c) l with hbL
      have hstep : writeAll (init s c) (l ++ [x]) = (bL.write x).1 := by
        rw [hbL]
        simp [writeAll, List.foldl_append]
      have hfull : ({ bL with should_always_drop_reads := false } :
          ThreadSafeRingBuffer).full = false := by
        show (bL.active_items_count == bL.max_items_count) = false
        rw [ih3, ih2]
        exact beq_eq_false_iff_ne.mpr (Nat.ne_of_lt hlenlt)
      have hwr : (bL.write x).1 =
          perform_write { bL with should_always_drop_reads := false } x := by
        simp only [ThreadSafeRingBuffer.write]
        rw [if_neg (by simp [hfull])]
      have hwidx : ((bL.write_idx + 1) % SZ) % bL.max_items_count = l.length := by
        rw [ih2]
        rcases Nat.eq_zero_or_pos l.length with h0 | hpos
        · rw [ih6, if_pos h0, h0]
          have hsm : (SIZE_MAX + 1) % SZ = 0 := by decide
          rw [hsm, Nat.zero_mod]
        · rw [ih6, if_neg (by omega)]
          have h1 : l.length - 1 + 1 = l.length := by omega
          have h2 : l.length < SZ := by omega
          rw [h1, Nat.mod_eq_of_lt h2, Nat.mod_eq_of_lt hlenlt]
      have hxlen : x.length = s :=
        hsz x (List.mem_append_right _ (List.mem_singleton_self x))
      have hxbytes : ∀ v ∈ x, v < 256 :=
        hbytes x (List.mem_append_right _ (List.mem_singleton_self x))
      rw [hstep, hwr]
      refine ⟨?_, ?_, ?_, ?_, ?_, ?_, ?_, ?_⟩
      · rw [RingLemmas.perform_write_item_size]
        exact ih1
      · rw [RingLemmas.perform_write_max]
        exact ih2
      · rw [RingLemmas.perform_write_active, hlen1]
        show min ((bL.active_items_count + 1) % SZ) bL.max_items_count = l.length + 1
        rw [ih3, ih2, Nat.mod_eq_of_lt (by omega)]
        exact min_eq_left (by omega)
      · rw [RingLemmas.perform_write_read_idx]
        exact ih4
      · rw [RingLemmas.perform_write_dropped]
        exact ih5
      · rw [RingLemmas.perform_write_write_idx, hlen1]
        show ((bL.write_idx + 1) % SZ) % bL.max_items_count = _
        rw [hwidx, if_neg (by omega)]
        omega
      · rw [RingLemmas.perform_write_flag]
        show false = (l ++ [x]).isEmpty
        simp
      · intro k hk
        rw [hlen1] at hk
        rw [RingLemmas.perform_write_buffer]
        show readBytes (writeBytes bL.buffer
          ((((bL.write_idx + 1) % SZ) % bL.max_items_count) * bL.item_size) x)
            (k * s) s = (l ++ [x]).getD k []
        rw [hwidx, ih1]
        rcases Nat.lt_or_ge k l.length with hkl | hke
        · have hdisj : k * s + s ≤ l.length * s := by
            have h1 : (k + 1) * s ≤ l.length * s :=
              mul_le_mul_right' (Nat.succ_le_of_lt hkl) s
            have h2 : k * s + s = (k + 1) * s := by ring
            omega
          rw [RingLemmas.readBytes_writeBytes_left _ _ _ _ _ hdisj, ih8 k hkl,
            List.getD_append _ _ _ _ hkl]
        · have hkeq : k = l.length := by omega
          rw [hkeq]
          have hself : readBytes (writeBytes bL.buffer (l.length * s) x)
              (l.length * s) s = x := by
            conv_lhs => rw [← hxlen]
            exact RingLemmas.readBytes_writeBytes_self _ _ _ hxbytes
          rw [hself, List.getD_append_right _ _ _ _ (le_refl _)]
          simp

/-- A `perform_read` whose drop condition fails completes: the streak is
cleared, the read cursor advances, the callback observes the slot, `pop`
runs. -/
theorem perform_read_completes (b : ThreadSafeRingBuffer)
    (h : ¬(b.incremented_with_capacity b.read_idx = b.write_idx ∧
        (b.should_always_drop_reads = true ∨
          b.dropped_reads < MAX_ALLOWED_READ_DROPS))) :
    perform_read b =
      (ThreadSafeRingBuffer.pop { b with dropped_reads := 0, read_idx := b.incremented_with_capacity b.read_idx },
        some (readBytes b.buffer
          (b.incremented_with_capacity b.read_idx * b.item_size) b.item_size)) := by
  simp only [ThreadSafeRingBuffer.perform_read]
  rw [if_neg h]
  rfl

/-- `readN` on a buffer whose occupancy counter reads zero is a no-op: every
blocking read sees the advisory empty check and waits. -/
theorem readN_of_inactive (b : ThreadSafeRingBuffer)
    (h : b.active_items_count = 0) : ∀ n, readN b n = (b, [])
  | 0 => rfl
  | n + 1 => by
      have he : b.empty = true := by simp [ThreadSafeRingBuffer.empty, h]
      have hr : b.read = (b, none) := by simp [ThreadSafeRingBuffer.read, he]
      simp [readN, hr, readN_of_inactive b h n]


/-- Draining a buffer that holds the items of `items` in slots `0 ..` with
the write cursor parked on the last slot: starting after `j` completed reads,
the remaining blocking reads deliver items `j .. length - 2` in order and the
final read is suppressed by the collision rule (leaving a drop streak of one
and the last item buffered). -/
theorem readN_drain (s c : Nat) (items : List (List Nat))
    (hc : c < SZ) (hNc : items.length ≤ c) (hN31 : items.length ≤ 2 ^ 31) :
    ∀ n j b, n + j = items.length → j < items.length →
      b.item_size = s → b.max_items_count = c →
      b.active_items_count = items.length - j →
      b.write_idx = items.length - 1 →
      b.read_idx = (if j = 0 then SIZE_MAX else j - 1) →
      b.dropped_reads = 0 →
      b.should_always_drop_reads = false →
      (∀ k, k < items.length → readBytes b.buffer (k * s) s = items.getD k []) →
      (readN b n).2 = (items.drop j).take (items.length - 1 - j) ∧
      (readN b n).1.dropped_reads = 1 ∧
      (readN b n).1.active_items_count = 1 ∧
      (readN b n).1.write_idx = items.length - 1 ∧
      (readN b n).1.read_idx =
        (if items.length = 1 then SIZE_MAX else items.length - 2) ∧
      (readN b n).1.item_size = s ∧
      (readN b n).1.max_items_count = c ∧
      (readN b n).1.buffer = b.buffer := by
  intro n
  induction n with
  | zero =>
      intro j b hnj hj _ _ _ _ _ _ _ _
      omega
  | succ m ihm =>
      intro j b hnj hj hbs hbc hba hbw hbr hbd hbf hbuf
      have hempty : b.empty = false := by
        simp only [ThreadSafeRingBuffer.empty, hba, beq_eq_false_iff_ne, ne_eq]
        omega
      have hread : b.read = perform_read b := by
        simp [ThreadSafeRingBuffer.read, hempty]
      have hinc : b.incremented_with_capacity b.read_idx = j := by
        simp only [ThreadSafeRingBuffer.incremented_with_capacity,
          ThreadSafeRingBuffer.capacity]
        rw [hbr, hbc]
        rcases Nat.eq_zero_or_pos j with h0 | hpos
        · rw [if_pos h0, h0]
          have hsm : (SIZE_MAX + 1) % SZ = 0 := by decide
          rw [hsm, Nat.zero_mod]
        · rw [if_neg (by omega)]
          have h1 : j - 1 + 1 = j := by omega
          have hj1 : j % SZ = j := Nat.mod_eq_of_lt (by omega)
          have hj2 : j % c = j := Nat.mod_eq_of_lt (by omega)
          rw [h1, hj1, hj2]
      by_cases hlast : j = items.length - 1
      · have hm0 : m = 0 := by omega
        subst hm0
        have hcoll : b.incremented_with_capacity b.read_idx = b.write_idx := by
          rw [hinc, hbw, hlast]
        have hsup : perform_read b =
            ({ b with dropped_reads := (b.dropped_reads + 1) % U32 }, none) := by
          simp only [ThreadSafeRingBuffer.perform_read]
          rw [if_pos ⟨hcoll, Or.inr (by rw [hbd]; decide)⟩]
        have hone : (b.dropped_reads + 1) % U32 = 1 := by
          rw [hbd]
          decide
        have hs1 : readN b 1 = ({ b with dropped_reads := 1 }, []) := by
          simp [readN, hread, hsup, hone]
        rw [hs1]
        refine ⟨?_, rfl, ?_, ?_, ?_, hbs, hbc, rfl⟩
        · have : items.length - 1 - j = 0 := by omega
          rw [this, List.take_zero]
        · show b.active_items_count = 1
          omega
        · show b.write_idx = items.length - 1
          exact hbw
        · show b.read_idx = _
          rw [hbr]
          rcases Nat.eq_zero_or_pos j with h0 | hpos
          · rw [if_pos h0, if_pos (by omega)]
          · rw [if_neg (by omega), if_neg (by omega)]
            omega
      · have hnc : ¬(b.incremented_with_capacity b.read_idx = b.write_idx ∧
            (b.should_always_drop_reads = true ∨
              b.dropped_reads < MAX_ALLOWED_READ_DROPS)) := by
          rintro ⟨hcol, -⟩
          rw [hinc, hbw] at hcol
          omega
        have hcomp := perform_read_completes b hnc
        set b' := ThreadSafeRingBuffer.pop { b with dropped_reads := 0, read_idx := b.incremented_with_capacity b.read_idx } with hb'
        have hinner : ({ b with dropped_reads := 0, read_idx := b.incremented_with_capacity b.read_idx } : ThreadSafeRingBuffer).active_items_count = items.length - j := hba
        have hb'a : b'.active_items_count = items.length - (j + 1) := by
          rw [hb', RingLemmas.pop_active_of_le (by rw [hinner]; omega) (by rw [hinner]; omega), hinner]
          omega
        have hb'r : b'.read_idx = (if j + 1 = 0 then SIZE_MAX else j + 1 - 1) := by
          rw [if_neg (by omega), hb', pop_read_idx]
          show b.incremented_with_capacity b.read_idx = j + 1 - 1
          rw [hinc]
          omega
        have hb's : b'.item_size = s := by
          rw [hb', pop_item_size]
          exact hbs
        have hb'c : b'.max_items_count = c := by
          rw [hb', pop_max]
          exact hbc
        have hb'w : b'.write_idx = items.length - 1 := by
          rw [hb', pop_write_idx]
          exact hbw
        have hb'd : b'.dropped_reads = 0 := by
          rw [hb', pop_dropped]
        have hb'f : b'.should_always_drop_reads = false := by
          rw [hb', pop_flag]
          exact hbf
        have hbb : b'.buffer = b.buffer := by
          rw [hb', pop_buffer]
        have hb'buf : ∀ k, k < items.length →
            readBytes b'.buffer (k * s) s = items.getD k [] := by
          intro k hk
          rw [hbb]
          exact hbuf k hk
        obtain ⟨d1, d2, d3, d4, d5, d6, d7, d8⟩ :=
          ihm (j + 1) b' (by omega) (by omega) hb's hb'c hb'a hb'w hb'r hb'd hb'f hb'buf
        have hdeliv : (b.read).2 = some (items.getD j []) := by
          rw [hread, hcomp]
          show some (readBytes b.buffer
            (b.incremented_with_capacity b.read_idx * b.item_size) b.item_size) = _
          rw [hinc, hbs, hbuf j hj]
        have hstate : (b.read).1 = b' := by
          rw [hread, hcomp]
        have hsplit : readN b (m + 1) =
            ((readN b' m).1, (b.read).2.toList ++ (readN b' m).2) := by
          simp [readN, hstate]
        rw [hsplit, hdeliv]
        have hdrop : items.drop j = items.getD j [] :: items.drop (j + 1) := by
          rw [List.getD_eq_getElem _ _ hj]
          exact List.drop_eq_getElem_cons hj
        refine ⟨?_, d2, d3, d4, d5, d6, d7, d8.trans hbb⟩
        rw [d1, hdrop]
        have hn1 : items.length - 1 - j = (items.length - 1 - (j + 1)) + 1 := by omega
        rw [hn1, List.take_succ_cons]
        rfl

/-- Unfolding equation for `readN` at a successor count. -/
theorem readN_succ (b : ThreadSafeRingBuffer) (n : Nat) :
    readN b (n + 1) =
      ((readN (b.read).1 n).1, (b.read).2.toList ++ (readN (b.read).1 n).2) := rfl

/-- C2 (amended): for `1 ≤ N ≤ capacity` with `N ≤ 2 ^ 31`, a fresh buffer,
`N` blocking writes of distinct byte items followed by `N` blocking reads
delivers exactly the first `N - 1` items in write order; the `N`-th read is
suppressed by the collision rule (drop streak one, occupancy one), and the
final item is delivered by one further blocking read once the write cursor is
administratively reset to the sentinel.  (The restriction `N ≤ 2 ^ 31` is
necessary: at `N = 2 ^ 31 + 1` the int cast in `pop` zeroes the occupancy
after the first completed read and only the first written item is ever
delivered by the `N` read calls; see the counterexample.) -/
theorem C2_fifo_first_writes_then_reads (s c N : Nat) (items : List (List Nat))
    (hlen : items.length = N) (h1 : 1 ≤ N) (hNc : N ≤ c) (hc : c < SZ)
    (hN31 : N ≤ 2 ^ 31)
    (hsz : ∀ it ∈ items, it.length = s)
    (hbytes : ∀ it ∈ items, ∀ v ∈ it, v < 256)
    (hdup : items.Nodup) :
    (readN (writeAll (init s c) items) N).2 = items.take (N - 1) ∧
    (readN (writeAll (init s c) items) N).1.dropped_reads = 1 ∧
    (readN (writeAll (init s c) items) N).1.active_items_count = 1 ∧
    ((((readN (writeAll (init s c) items) N).1.reset_write_idx).read).2 =
      some (items.getD (N - 1) [])) := by
  obtain ⟨w1, w2, w3, w4, w5, w6, w7, w8⟩ :=
    writeAll_from_init s c hc items (by omega) hsz hbytes
  set bw := writeAll (init s c) items with hbw
  have hfl : bw.should_always_drop_reads = false := by
    rw [w7]
    cases items with
    | nil => simp at hlen; omega
    | cons it rest => rfl
  obtain ⟨d1, d2, d3, d4, d5, d6, d7, d8⟩ :=
    readN_drain s c items hc (by omega) (by omega) N 0 bw (by omega) (by omega)
      w1 w2 (by rw [w3]; omega)
      (by rw [w6, if_neg (by omega)])
      (by rw [w4, if_pos rfl])
      w5 hfl w8
  have hdel : (readN bw N).2 = items.take (N - 1) := by
    rw [d1, List.drop_zero, hlen]
    simp
  refine ⟨hdel, d2, d3, ?_⟩
  set bf := (readN bw N).1 with hbf
  set L := bf.reset_write_idx with hL
  have hLw : L.write_idx = SIZE_MAX := rfl
  have hLa : L.active_items_count = 1 := d3
  have hLs : L.item_size = s := d6
  have hLc : L.max_items_count = c := d7
  have hLr : L.read_idx = (if items.length = 1 then SIZE_MAX else items.length - 2) := d5
  have hLb : L.buffer = bw.buffer := d8
  have hincL : L.incremented_with_capacity L.read_idx = N - 1 := by
    simp only [ThreadSafeRingBuffer.incremented_with_capacity,
      ThreadSafeRingBuffer.capacity]
    rw [hLr, hLc, hlen]
    rcases Nat.eq_or_lt_of_le h1 with hN1 | hN2
    · rw [if_pos hN1.symm]
      rw [show (SIZE_MAX + 1) % SZ = 0 by decide, Nat.zero_mod]
      omega
    · rw [if_neg (by omega)]
      have he : N - 2 + 1 = N - 1 := by omega
      have hm1 : (N - 1) % SZ = N - 1 := Nat.mod_eq_of_lt (by omega)
      have hm2 : (N - 1) % c = N - 1 := Nat.mod_eq_of_lt (by omega)
      rw [he, hm1, hm2]
  have hncL : ¬(L.incremented_with_capacity L.read_idx = L.write_idx ∧
      (L.should_always_drop_reads = true ∨
        L.dropped_reads < MAX_ALLOWED_READ_DROPS)) := by
    rintro ⟨h, -⟩
    rw [hincL, hLw] at h
    simp only [SIZE_MAX] at h
    omega
  have hLe : L.empty = false := by
    simp only [ThreadSafeRingBuffer.empty, hLa]
    decide
  have hLread : L.read = perform_read L := by
    simp [ThreadSafeRingBuffer.read, hLe]
  rw [hLread, perform_read_completes L hncL]
  show some (readBytes L.buffer
    (L.incremented_with_capacity L.read_idx * L.item_size) L.item_size) = _
  rw [hincL, hLs, hLb, w8 (N - 1) (by omega)]

/-- C2 witness: item size 1, capacity 2, two distinct items: the two blocking
reads deliver only the first item and leave a drop streak of one; the second
item arrives only after the administrative reset of the write cursor. -/
theorem C2_fifo_first_writes_then_reads_witness :
    (readN (writeAll (init 1 2) [[10], [20]]) 2).2 = [[10], [20]].take 1 ∧
    (readN (writeAll (init 1 2) [[10], [20]]) 2).1.dropped_reads = 1 ∧
    ((((readN (writeAll (init 1 2) [[10], [20]]) 2).1.reset_write_idx).read).2 =
      some ([[10], [20]].getD 1 [])) :=
  ⟨(C2_fifo_first_writes_then_reads 1 2 2 [[10], [20]] rfl (by decide) (by decide)
      (by decide) (by decide) (by decide) (by decide) (by decide)).1,
   (C2_fifo_first_writes_then_reads 1 2 2 [[10], [20]] rfl (by decide) (by decide)
      (by decide) (by decide) (by decide) (by decide) (by decide)).2.1,
   (C2_fifo_first_writes_then_reads 1 2 2 [[10], [20]] rfl (by decide) (by decide)
      (by decide) (by decide) (by decide) (by decide) (by decide)).2.2.2⟩

/-- On a buffer whose fields match the state reached by `bigN` blocking
writes (occupancy `bigN`, write cursor on the last slot, read side fresh),
running `bigN` blocking reads delivers only the bytes of slot `0`: the first
completed read runs `pop` at occupancy `2 ^ 31 + 1`, whose int cast zeroes
the occupancy counter, and every later blocking read finds the buffer
advisorily empty and waits forever. -/
theorem readN_starves_at_bigN (b : ThreadSafeRingBuffer)
    (h1 : b.item_size = 4) (h2 : b.max_items_count = bigN)
    (h3 : b.active_items_count = bigN) (h4 : b.read_idx = SIZE_MAX)
    (h6 : b.write_idx = bigN - 1) :
    (readN b bigN).2 = [readBytes b.buffer (0 * 4) 4] := by
  have hinc : b.incremented_with_capacity b.read_idx = 0 := by
    simp only [ThreadSafeRingBuffer.incremented_with_capacity,
      ThreadSafeRingBuffer.capacity]
    rw [h4, h2, show (SIZE_MAX + 1) % SZ = 0 by decide, Nat.zero_mod]
  have hnc : ¬(b.incremented_with_capacity b.read_idx = b.write_idx ∧
      (b.should_always_drop_reads = true ∨
        b.dropped_reads < MAX_ALLOWED_READ_DROPS)) := by
    rintro ⟨h, -⟩
    rw [hinc, h6] at h
    exact absurd h.symm (by decide)
  have hempty : b.empty = false := by
    simp only [ThreadSafeRingBuffer.empty, h3]
    decide
  have hread1 : b.read = perform_read b := by
    simp [ThreadSafeRingBuffer.read, hempty]
  have hcomp := perform_read_completes b hnc
  have hb1a : (b.read).1.active_items_count = 0 := by
    rw [hread1, hcomp]
    show (ThreadSafeRingBuffer.pop _).active_items_count = 0
    rw [RingLemmas.pop_active]
    show ThreadSafeRingBuffer.pop_value b.active_items_count = 0
    rw [h3]
    decide
  have hrest := readN_of_inactive (b.read).1 hb1a (bigN - 1)
  have hsucc : readN b bigN =
      ((readN (b.read).1 (bigN - 1)).1,
        (b.read).2.toList ++ (readN (b.read).1 (bigN - 1)).2) := by
    conv_lhs => rw [show bigN = (bigN - 1) + 1 by decide]
    exact readN_succ b (bigN - 1)
  have hd2 : (b.read).2 = some (readBytes b.buffer (0 * 4) 4) := by
    rw [hread1, hcomp]
    show some (readBytes b.buffer
      (b.incremented_with_capacity b.read_idx * b.item_size) b.item_size) = _
    rw [hinc, h1]
  rw [hsucc, hd2, hrest]
  rfl

/-- C2 counterexample: the claim as stated fails for `N = 2 ^ 31 + 1` (with
capacity `N` and four-byte items, a configuration a 64-bit machine can
allocate).  The `N` distinct items satisfy every hypothesis of the claim, yet
the `N` blocking reads do not deliver the first `N - 1` items in write order:
only the very first item is delivered, because the first completed read runs
`pop` at occupancy `2 ^ 31 + 1` and the int cast zeroes the occupancy
counter, starving all later blocking reads. -/
theorem C2_pop_cast_starves_reads :
    1 ≤ bigN ∧ bigN ≤ bigN ∧ bigItems.length = bigN ∧
    (∀ it ∈ bigItems, it.length = 4) ∧ bigItems.Nodup ∧
    (readN (writeAll (init 4 bigN) bigItems) bigN).2 ≠ bigItems.take (bigN - 1) := by
  have hlen : bigItems.length = bigN := by
    simp [bigItems]
  have hsz : ∀ it ∈ bigItems, it.length = 4 := by
    intro it hit
    simp only [bigItems, List.mem_map] at hit
    obtain ⟨k, -, rfl⟩ := hit
    rfl
  have hbytes : ∀ it ∈ bigItems, ∀ v ∈ it, v < 256 := by
    intro it hit v hv
    simp only [bigItems, List.mem_map] at hit
    obtain ⟨k, -, rfl⟩ := hit
    simp only [encodeItem, List.mem_cons, List.not_mem_nil, or_false] at hv
    rcases hv with h | h | h | h <;> subst h <;> exact Nat.mod_lt _ (by norm_num)
  have hdup : bigItems.Nodup := by
    have hinj : ∀ x ∈ List.range bigN, ∀ y ∈ List.range bigN,
        encodeItem x = encodeItem y → x = y := by
      intro x hx y hy he
      rw [List.mem_range] at hx hy
      simp only [encodeItem, List.cons.injEq, and_true] at he
      simp only [bigN] at hx hy
      omega
    exact List.Nodup.map_on hinj (List.nodup_range _)
  obtain ⟨w1, w2, w3, w4, w5, w6, w7, w8⟩ :=
    writeAll_from_init 4 bigN (by decide) bigItems (by rw [hlen]) hsz hbytes
  refine ⟨by decide, le_refl _, hlen, hsz, hdup, ?_⟩
  have hstarve := readN_starves_at_bigN (writeAll (init 4 bigN) bigItems)
    w1 w2 (by rw [w3, hlen]) w4
    (by rw [w6, hlen, if_neg (by decide)])
  rw [hstarve, w8 0 (by rw [hlen]; decide)]
  intro heq
  have hl := congrArg List.length heq
  rw [List.length_take, hlen] at hl
  simp only [List.length_singleton] at hl
  rw [min_eq_left (Nat.sub_le bigN 1)] at hl
  exact absurd hl (by decide)

/-- A run of colliding non-blocking reads outside overwrite mode, with the
drop streak staying below the threshold, suppresses every read: the only
state change is the streak growing by the number of reads. -/
theorem suppressedRun (k : Nat) :
    ∀ t : RunTrace,
      t.state.incremented_with_capacity t.state.read_idx = t.state.write_idx →
      t.state.should_always_drop_reads = false →
      t.state.dropped_reads + k ≤ MAX_ALLOWED_READ_DROPS →
      t.state.empty = false →
      runOps t (List.replicate k Op.read_nonblock) =
        { t with state :=
            { t.state with dropped_reads := t.state.dropped_reads + k } } := by
  induction k with
  | zero =>
      intro t _ _ _ _
      rfl
  | succ m ih =>
      intro t hcol hfl hle hne
      have hMv : MAX_ALLOWED_READ_DROPS = 393210 := rfl
      have hUv : U32 = 4294967296 := by
        simp [U32]
      have hpr : perform_read t.state =
          ({ t.state with dropped_reads := (t.state.dropped_reads + 1) % U32 },
            none) := by
        simp only [ThreadSafeRingBuffer.perform_read]
        rw [if_pos ⟨hcol, Or.inr (by omega)⟩]
      have hmod : (t.state.dropped_reads + 1) % U32 = t.state.dropped_reads + 1 :=
        Nat.mod_eq_of_lt (by omega)
      have hrn : t.state.read_nonblock =
          ({ t.state with dropped_reads := t.state.dropped_reads + 1 }, none) := by
        simp only [ThreadSafeRingBuffer.read_nonblock]
        rw [if_neg (by rw [hne]; exact Bool.false_ne_true), hpr, hmod]
      have hstep : stepTrace t Op.read_nonblock =
          { t with state :=
              { t.state with dropped_reads := t.state.dropped_reads + 1 } } := by
        simp only [stepTrace]
        rw [hrn]
        simp
      have hchain : runOps t (List.replicate (m + 1) Op.read_nonblock) =
          runOps (stepTrace t Op.read_nonblock)
            (List.replicate m Op.read_nonblock) := by
        rw [List.replicate_succ]
        rfl
      have hadd : t.state.dropped_reads + (m + 1) =
          (t.state.dropped_reads + 1) + m := by omega
      rw [hchain, hstep, hadd]
      exact ih { t with state :=
          { t.state with dropped_reads := t.state.dropped_reads + 1 } }
        hcol hfl
        (by
          show t.state.dropped_reads + 1 + m ≤ MAX_ALLOWED_READ_DROPS
          omega)
        hne

/-- C8 counterexample: `empty()` does not hold only on a freshly constructed
buffer or after every written item has been read.  On a two-slot buffer, the
public-operation run `c8Ops` (overwrite writes lapping an unread slot, a
dropped non-blocking write clearing the overwrite flag, the full drop streak
and the forced read, then one draining read) ends with `empty() = true`
although the item `[0]` was written by an invoked writer callback and was
never delivered to any reader callback. -/
theorem C8_empty_after_lost_item :
    (runOps (RunTrace.start (init 1 2)) c8Ops).state.empty = true ∧
    [0] ∈ (runOps (RunTrace.start (init 1 2)) c8Ops).written ∧
    (runOps (RunTrace.start (init 1 2)) c8Ops).written ≠ [] ∧
    [0] ∉ (runOps (RunTrace.start (init 1 2)) c8Ops).delivered := by
  have hsplit : runOps (RunTrace.start (init 1 2)) c8Ops =
      runOps (runOps (runOps (RunTrace.start (init 1 2)) c8Setup)
        (List.replicate MAX_ALLOWED_READ_DROPS Op.read_nonblock))
        [Op.read_nonblock, Op.read_nonblock] := by
    simp only [c8Ops, runOps, List.foldl_append]
  have hmid := suppressedRun MAX_ALLOWED_READ_DROPS
    (runOps (RunTrace.start (init 1 2)) c8Setup)
    (by decide) (by decide) (by decide) (by decide)
  rw [hsplit, hmid]
  decide

/-- C8 (amended): `empty()` returns true exactly when the occupancy counter
is zero — in particular on a freshly constructed buffer, though not only
after every written item has been read (see the counterexample) — and
`full()` returns true exactly when the occupancy counter equals the
capacity.  In particular, for `item_size = 4` and `capacity = 3`, after three
sequential blocking writes of AAAA, BBBB, CCCC the buffer is full, and one
subsequent blocking read hands the reader callback the bytes of AAAA and
leaves `size()` at two. -/
theorem C8_empty_full_and_concrete_run :
    (init 4 3).empty = true ∧
    (∀ b : ThreadSafeRingBuffer, b.empty = true ↔ b.active_items_count = 0) ∧
    (∀ b : ThreadSafeRingBuffer,
      b.full = true ↔ b.active_items_count = b.max_items_count) ∧
    (writeAll (init 4 3)
      [[65, 65, 65, 65], [66, 66, 66, 66], [67, 67, 67, 67]]).full = true ∧
    ((writeAll (init 4 3)
      [[65, 65, 65, 65], [66, 66, 66, 66], [67, 67, 67, 67]]).read).2 =
      some [65, 65, 65, 65] ∧
    ((writeAll (init 4 3)
      [[65, 65, 65, 65], [66, 66, 66, 66], [67, 67, 67, 67]]).read).1.size = 2 := by
  refine ⟨rfl, ?_, ?_, ?_, ?_, ?_⟩
  · intro b
    simp [ThreadSafeRingBuffer.empty]
  · intro b
    simp [ThreadSafeRingBuffer.full, ThreadSafeRingBuffer.capacity]
  · decide
  · decide
  · decide
